import Mathlib

/-!
Verification of the `fence`/`loq` line-count policy checker.

The repository's CLI layer is available in the sources
(`crates/fence_cli/src/cli.rs`, `crates/loq_cli/src/main.rs`,
`crates/loq_cli/src/output/json.rs`); the `loq_core` crate that implements
the rule-matching and classification engine is not part of the provided
sources, so the core operations (`resolve`, `classify`, `aggregate`,
`generate_baseline`, `run_check`) are modelled from the specification,
while the JSON renderer and the `MatchBy` provenance type it consumes are
embedded from `crates/loq_cli/src/output/json.rs`.
-/

set_option autoImplicit false

namespace Core

/-- Modelled from the spec: provenance of a resolved limit —
`ExplicitExemption` | `Rule(pattern)` | `Default` (spec §3, §4.1).
The `loq_core` type is not in the provided sources; this follows the
spec's three-variant description. (The renderer in
`crates/loq_cli/src/output/json.rs` uses a two-variant `MatchBy` type,
embedded separately below as `loq.MatchBy`.) -/
inductive Provenance where
  | ExplicitExemption : Provenance
  | Rule : String → Provenance
  | Default : Provenance
deriving DecidableEq, Repr

/-- Modelled from the spec: the Config model (spec §3) —
`default_limit`, an ordered sequence of `(pattern, limit)` rules, and a
mapping of explicit path exemptions, represented as an association list
(keys unique, first binding wins on lookup). -/
structure Config where
  default_limit : Nat
  rules : List (String × Nat)
  exemptions : List (String × Nat)
deriving DecidableEq, Repr

/-- Association-list lookup for the exemptions mapping. -/
def lookupEx : List (String × Nat) → String → Option Nat
  | [], _ => none
  | (k, v) :: rest, p => if k = p then some v else lookupEx rest p

/-- Modelled from the spec: "add (or overwrite) an exemption for that
path" (spec §4.4) — overwrite in place if the key is present, otherwise
append. -/
def upsert : List (String × Nat) → String → Nat → List (String × Nat)
  | [], k, v => [(k, v)]
  | (k0, v0) :: rest, k, v =>
    if k0 = k then (k, v) :: rest else (k0, v0) :: upsert rest k v

/-- All suffixes of a character list (candidates for what `**` may
consume from the front of the remaining path). -/
def allSuffixes : List Char → List (List Char)
  | [] => [[]]
  | c :: s => (c :: s) :: allSuffixes s

/-- Suffixes of a character list reachable by dropping a (possibly
empty) run of non-separator characters (candidates for `*`). -/
def segSuffixes : List Char → List (List Char)
  | [] => [[]]
  | c :: s => (c :: s) :: (if c = '/' then [] else segSuffixes s)

/-- Modelled from the spec: glob matching over the normalized relative
path, case-sensitive and anchored to the full path; `*` matches any run
of characters excluding the path separator, `**` any run including
separators (spec §4.1). -/
def globChars : List Char → List Char → Bool
  | [], s => s.isEmpty
  | '*' :: '*' :: ps, s => (allSuffixes s).any fun t => globChars ps t
  | '*' :: ps, s => (segSuffixes s).any fun t => globChars ps t
  | _ :: _, [] => false
  | c :: ps, d :: s => c = d && globChars ps s

/-- Glob matching on strings (pattern against path). -/
def globMatch (pattern path : String) : Bool :=
  globChars pattern.toList path.toList

/-- First rule (in declaration order) whose pattern matches the path. -/
def firstRule (rules : List (String × Nat)) (path : String) :
    Option (String × Nat) :=
  rules.find? fun r => globMatch r.1 path

/-- Modelled from the spec: the Rule Matcher (spec §4.1) —
exemption lookup first, then first matching rule in declaration order,
then the default limit. Total: an unmatched path always falls through
to the default. -/
def resolve (c : Config) (path : String) : Nat × Provenance :=
  match lookupEx c.exemptions path with
  | some l => (l, Provenance.ExplicitExemption)
  | none =>
    match firstRule c.rules path with
    | some (pat, l) => (l, Provenance.Rule pat)
    | none => (c.default_limit, Provenance.Default)

/-- Modelled from the spec: a finding's kind (spec §3) —
`Violation {limit, matched_by}`, `Ok {limit, matched_by}`, or
`Skipped {reason}`. -/
inductive FindingKind where
  | Ok : Nat → Provenance → FindingKind
  | Violation : Nat → Provenance → FindingKind
  | Skipped : String → FindingKind
deriving DecidableEq, Repr

/-- Whether a finding kind is a violation. -/
def FindingKind.isViolation : FindingKind → Bool
  | FindingKind.Violation _ _ => true
  | _ => false

/-- Modelled from the spec: a per-file finding (spec §3) — normalized
path, observed line count, and kind. -/
structure Finding where
  path : String
  actual : Nat
  kind : FindingKind
deriving DecidableEq, Repr

/-- Modelled from the spec: the Classifier (spec §4.2) — pure:
`actual_lines > limit` gives `Violation`, otherwise `Ok`;
equal-to-limit is compliant. -/
def classify (path : String) (actual : Nat) (limit : Nat)
    (matched_by : Provenance) : Finding :=
  { path := path
    actual := actual
    kind :=
      if limit < actual then FindingKind.Violation limit matched_by
      else FindingKind.Ok limit matched_by }

/-- Modelled from the spec: report summary — `total` and `violations`
(spec §3). -/
structure Summary where
  total : Nat
  violations : Nat
deriving DecidableEq, Repr

/-- Modelled from the spec: a report — ordered findings plus a summary
derived by a single pass over them (spec §3). -/
structure Report where
  findings : List Finding
  summary : Summary
deriving DecidableEq, Repr

/-- Modelled from the spec: the Report Aggregator (spec §4.3) — a single
pass over the findings, preserving their order, counting `total` and
`violations`. -/
def aggregate (fs : List Finding) : Report :=
  { findings := fs
    summary :=
      fs.foldl
        (fun s f =>
          { total := s.total + 1
            violations :=
              s.violations + (if f.kind.isViolation then 1 else 0) })
        { total := 0, violations := 0 } }

/-- Modelled from the spec: `run_check(config, entries) -> Report`
(spec §6) — resolve a limit per path, classify each entry, aggregate in
input order. -/
def run_check (c : Config) (entries : List (String × Nat)) : Report :=
  aggregate
    (entries.map fun e =>
      classify e.1 e.2 (resolve c e.1).1 (resolve c e.1).2)

/-- One step of baseline generation (spec §4.4): resolve the entry's
limit against the `existing` config; if `actual_lines > limit`, add or
overwrite an exemption for that path with value `actual_lines`. -/
def baselineStep (existing : Config) (ex : List (String × Nat))
    (e : String × Nat) : List (String × Nat) :=
  if (resolve existing e.1).1 < e.2 then upsert ex e.1 e.2 else ex

/-- Modelled from the spec: the Baseline Generator (spec §4.4) — for
every entry, resolve its limit against `existing` exactly as in §4.1 and
add/overwrite an exemption when the entry exceeds it; default and rules
are carried through unchanged. -/
def generate_baseline (existing : Config)
    (entries : List (String × Nat)) : Config :=
  { default_limit := existing.default_limit
    rules := existing.rules
    exemptions := entries.foldl (baselineStep existing) existing.exemptions }

end Core

namespace loq

/-- Embedded from `crates/loq_cli/src/output/json.rs`: the `MatchBy`
provenance type consumed by the renderer. The `match matched_by` at
lines 42–45 has exactly the arms `MatchBy::Rule { pattern }` and
`MatchBy::Default` and no wildcard arm, and Rust requires `match` to be
exhaustive, so `MatchBy` has exactly these two variants. -/
inductive MatchBy where
  | Rule : String → MatchBy
  | Default : MatchBy
deriving DecidableEq, Repr

/-- Finding kind as consumed by the renderer: the `Violation` fields
`actual`, `limit`, `matched_by` are embedded from the pattern at
`json.rs` lines 35–40; the non-violation kinds (`Ok`, `Skipped`) are
modelled from the spec (spec §3), since the renderer only destructures
`Violation` and maps everything else to `None`. -/
inductive FindingKind where
  | Ok : Nat → Nat → MatchBy → FindingKind
  | Violation : Nat → Nat → MatchBy → FindingKind
  | Skipped : String → FindingKind
deriving DecidableEq, Repr

/-- A finding as consumed by the renderer (`finding.path`,
`finding.kind` in `json.rs`). -/
structure Finding where
  path : String
  kind : FindingKind
deriving DecidableEq, Repr

/-- Report summary as consumed by the renderer (`report.summary.total`,
`report.summary.errors` in `json.rs` lines 62–63). -/
structure Summary where
  total : Nat
  errors : Nat
deriving DecidableEq, Repr

/-- A report as consumed by the renderer (`report.findings`,
`report.summary`). -/
structure Report where
  findings : List Finding
  summary : Summary
deriving DecidableEq, Repr

/-- Embedded from `json.rs`: the serialized shape of one violation. -/
structure JsonViolation where
  path : String
  lines : Nat
  max_lines : Nat
  rule : String
deriving DecidableEq, Repr

/-- Embedded from `json.rs`: the serialized summary. -/
structure JsonSummary where
  files_checked : Nat
  violations : Nat
deriving DecidableEq, Repr

/-- Embedded from `json.rs`: the full serialized output value that
`serde_json::to_writer_pretty` renders. -/
structure JsonOutput where
  version : String
  violations : List JsonViolation
  summary : JsonSummary
deriving DecidableEq, Repr

/-- Embedded from `json.rs` lines 42–45: the `rule` string emitted for a
violation's provenance — the pattern for `MatchBy::Rule`, the literal
string `"default"` for `MatchBy::Default`. -/
def ruleString : MatchBy → String
  | MatchBy.Rule pattern => pattern
  | MatchBy.Default => "default"

/-- Embedded from `json.rs` lines 34–55: the `filter_map` body — a
`Violation` finding becomes a `JsonViolation`, everything else is
dropped. -/
def jsonOfFinding (f : Finding) : Option JsonViolation :=
  match f.kind with
  | FindingKind.Violation actual limit matched_by =>
    some { path := f.path, lines := actual, max_lines := limit
           rule := ruleString matched_by }
  | _ => none

/-- Embedded from `json.rs` `write_json`: the `JsonOutput` value written
to the writer. The byte output of `serde_json::to_writer_pretty` is a
deterministic function of this value (the crate version string is a
compile-time constant, modelled as `"0.1.0"`). -/
def write_json (r : Report) : JsonOutput :=
  { version := "0.1.0"
    violations := r.findings.filterMap jsonOfFinding
    summary := { files_checked := r.summary.total
                 violations := r.summary.errors } }

end loq

namespace loq

/-- A report whose single violation was matched by a rule whose pattern
is literally the string `"default"`. -/
def reportRuleNamedDefault : Report :=
  { findings := [{ path := "src/big.rs"
                   kind := FindingKind.Violation 400 300 (MatchBy.Rule "default") }]
    summary := { total := 1, errors := 1 } }

/-- A report whose single violation was matched by the default limit. -/
def reportMatchedByDefault : Report :=
  { findings := [{ path := "src/big.rs"
                   kind := FindingKind.Violation 400 300 MatchBy.Default }]
    summary := { total := 1, errors := 1 } }

end loq

namespace Core

/-- Looking up the upserted key returns the upserted value. -/
theorem lookupEx_upsert_self (ex : List (String × Nat)) (k : String) (v : Nat) :
    lookupEx (upsert ex k v) k = some v := by
  induction ex with
  | nil => simp [upsert, lookupEx]
  | cons hd t ih =>
    obtain ⟨k0, v0⟩ := hd
    by_cases hk : k0 = k
    · simp [upsert, hk, lookupEx]
    · simp [upsert, hk, lookupEx, ih]

/-- Upserting one key does not change lookups of other keys. -/
theorem lookupEx_upsert_ne (ex : List (String × Nat)) (k : String) (v : Nat)
    (p : String) (h : p ≠ k) :
    lookupEx (upsert ex k v) p = lookupEx ex p := by
  induction ex with
  | nil => simp [upsert, lookupEx, Ne.symm h]
  | cons hd t ih =>
    obtain ⟨k0, v0⟩ := hd
    by_cases hk : k0 = k
    · subst hk
      simp [upsert, lookupEx, Ne.symm h]
    · simp [upsert, hk, lookupEx, ih]

/-- Folding baseline steps over entries none of which trigger an
exemption at path `p` leaves the lookup of `p` unchanged. -/
theorem lookupEx_foldl_of_none (C : Config) (p : String) :
    ∀ (E : List (String × Nat)) (ex : List (String × Nat)),
      (∀ e ∈ E, e.1 = p → ¬ ((resolve C e.1).1 < e.2)) →
      lookupEx (E.foldl (baselineStep C) ex) p = lookupEx ex p := by
  intro E
  induction E with
  | nil => intro ex _; rfl
  | cons e t ih =>
    intro ex hE
    have he : e.1 = p → ¬ ((resolve C e.1).1 < e.2) := hE e (by simp)
    have ht : ∀ e' ∈ t, e'.1 = p → ¬ ((resolve C e'.1).1 < e'.2) :=
      fun e' h' => hE e' (by simp [h'])
    rw [List.foldl_cons, ih _ ht]
    unfold baselineStep
    by_cases hc : (resolve C e.1).1 < e.2
    · have hne : p ≠ e.1 := fun hpe => he hpe.symm hc
      rw [if_pos hc, lookupEx_upsert_ne _ _ _ _ hne]
    · rw [if_neg hc]

/-- Folding baseline steps over entries none of which exceed their
resolved limit is the identity on the exemption table. -/
theorem foldl_baselineStep_eq (G : Config) :
    ∀ (E : List (String × Nat)) (ex : List (String × Nat)),
      (∀ e ∈ E, ¬ ((resolve G e.1).1 < e.2)) →
      E.foldl (baselineStep G) ex = ex := by
  intro E
  induction E with
  | nil => intro ex _; rfl
  | cons e t ih =>
    intro ex h
    rw [List.foldl_cons]
    have hstep : baselineStep G ex e = ex := by
      unfold baselineStep
      rw [if_neg (h e (by simp))]
    rw [hstep, ih _ (fun e' h' => h e' (by simp [h']))]

/-- `resolve` only depends on the default limit, the rules, and the
result of the exemption lookup at the queried path. -/
theorem resolve_congr (c c' : Config) (p : String)
    (hde : c.default_limit = c'.default_limit) (hr : c.rules = c'.rules)
    (hx : lookupEx c.exemptions p = lookupEx c'.exemptions p) :
    resolve c p = resolve c' p := by
  unfold resolve
  rw [hx, hr, hde]

/-- The summary computed by `aggregate` is the length of the findings
paired with the number of violation findings. -/
theorem aggregate_summary (fs : List Finding) :
    (aggregate fs).summary
      = { total := fs.length
          violations := fs.countP fun f => f.kind.isViolation } := by
  have key : ∀ (l : List Finding) (t v : Nat),
      l.foldl
        (fun (s : Summary) f =>
          { total := s.total + 1
            violations :=
              s.violations + (if f.kind.isViolation then 1 else 0) })
        { total := t, violations := v }
      = ({ total := t + l.length
           violations := v + l.countP fun f => f.kind.isViolation } :
          Summary) := by
    intro l
    induction l with
    | nil => intro t v; simp
    | cons f fs ih =>
      intro t v
      rw [List.foldl_cons, ih]
      by_cases hv : f.kind.isViolation <;>
        simp [List.countP_cons, hv, Summary.mk.injEq] <;> omega
  have h := key fs 0 0
  simp at h
  exact h

/-- Classifying a count that is within the limit yields an `Ok`
finding. -/
theorem classify_kind_of_le (p : String) (m : Provenance) {n L : Nat}
    (h : n ≤ L) :
    (classify p n L m).kind = FindingKind.Ok L m := by
  unfold classify
  rw [if_neg (Nat.not_lt.mpr h)]

/-- Entries of a duplicate-free entry list never exceed the limit the
baseline-generated config resolves for them. -/
theorem baseline_covers (C : Config) (E : List (String × Nat))
    (hnd : (E.map Prod.fst).Nodup) :
    ∀ e ∈ E, e.2 ≤ (resolve (generate_baseline C E) e.1).1 := by
  intro e he
  obtain ⟨p, n⟩ := e
  obtain ⟨E1, E2, hsplit⟩ := List.append_of_mem he
  subst hsplit
  rw [List.map_append, List.map_cons] at hnd
  obtain ⟨-, h2, hdisj⟩ := List.nodup_append.mp hnd
  have hp2 : p ∉ E2.map Prod.fst := (List.nodup_cons.mp h2).1
  have hp1 : p ∉ E1.map Prod.fst := fun h =>
    hdisj h (List.mem_cons_self _ _)
  by_cases hc : (resolve C p).1 < n
  · have hfold :
        lookupEx ((E1 ++ (p, n) :: E2).foldl (baselineStep C) C.exemptions) p
          = some n := by
      rw [List.foldl_append, List.foldl_cons]
      have hstep :
          baselineStep C (E1.foldl (baselineStep C) C.exemptions) (p, n)
            = upsert (E1.foldl (baselineStep C) C.exemptions) p n := by
        unfold baselineStep
        rw [if_pos hc]
      rw [hstep]
      rw [lookupEx_foldl_of_none C p E2 _
        (fun e' h' hpe => absurd (List.mem_map.mpr ⟨e', h', hpe⟩) hp2)]
      exact lookupEx_upsert_self _ _ _
    have hres :
        resolve (generate_baseline C (E1 ++ (p, n) :: E2)) p
          = (n, Provenance.ExplicitExemption) := by
      unfold resolve
      simp only [generate_baseline] at hfold ⊢
      rw [hfold]
    rw [hres]
  · have hall : ∀ e' ∈ E1 ++ (p, n) :: E2,
        e'.1 = p → ¬ ((resolve C e'.1).1 < e'.2) := by
      intro e' h' hpe
      rcases List.mem_append.mp h' with h1 | h1
      · exact absurd (List.mem_map.mpr ⟨e', h1, hpe⟩) hp1
      · rcases List.mem_cons.mp h1 with h2 | h2
        · subst h2
          exact hc
        · exact absurd (List.mem_map.mpr ⟨e', h2, hpe⟩) hp2
    have hlook :
        lookupEx (generate_baseline C (E1 ++ (p, n) :: E2)).exemptions p
          = lookupEx C.exemptions p := by
      simp only [generate_baseline]
      exact lookupEx_foldl_of_none C p _ _ hall
    have hres :
        resolve (generate_baseline C (E1 ++ (p, n) :: E2)) p = resolve C p :=
      resolve_congr _ _ _ rfl rfl hlook
    rw [hres]
    exact Nat.not_lt.mp hc

end Core

namespace Core

/-- `find?` over a list that starts with rejected elements and then an
accepted one returns that first accepted element. -/
theorem find?_append_first {α : Type} (p : α → Bool) (pre : List α)
    (x : α) (post : List α)
    (hpre : ∀ q ∈ pre, p q = false) (hx : p x = true) :
    (pre ++ x :: post).find? p = some x := by
  induction pre with
  | nil => simp [List.find?, hx]
  | cons q pre ih =>
    rw [List.cons_append]
    simp only [List.find?, hpre q (List.mem_cons_self _ _)]
    exact ih fun q' h' => hpre q' (List.mem_cons_of_mem _ h')

end Core

namespace loq

/-- Characterization of the renderer's per-finding translation: it
produces a `JsonViolation` exactly for `Violation` findings. -/
theorem jsonOfFinding_eq_some (f : Finding) (v : JsonViolation) :
    jsonOfFinding f = some v ↔
      ∃ a l m, f.kind = FindingKind.Violation a l m
        ∧ v = { path := f.path, lines := a, max_lines := l
                rule := ruleString m } := by
  obtain ⟨p, k⟩ := f
  cases k with
  | Ok a l m => simp [jsonOfFinding]
  | Skipped r => simp [jsonOfFinding]
  | Violation a l m =>
    constructor
    · intro h
      exact ⟨a, l, m, rfl, (Option.some.inj h).symm⟩
    · rintro ⟨a', l', m', hk, rfl⟩
      injection hk with h1 h2 h3
      subst h1
      subst h2
      subst h3
      rfl

end loq

/-- Claim C1 (corrected): for every Config `C` and every sequence of
entries `E` whose paths are pairwise distinct, `run_check` with the
Config produced by `generate_baseline C E` on the same entries yields a
Report whose `summary.violations` equals 0. (The distinctness hypothesis
is forced: see the counterexample with a duplicated path.) -/
theorem C1_baseline_zero_violations (C : Core.Config)
    (E : List (String × Nat)) (hnd : (E.map Prod.fst).Nodup) :
    (Core.run_check (Core.generate_baseline C E) E).summary.violations
      = 0 := by
  have hcov := Core.baseline_covers C E hnd
  unfold Core.run_check
  rw [Core.aggregate_summary]
  rw [List.countP_eq_zero]
  intro a ha
  rw [List.mem_map] at ha
  obtain ⟨e, he, rfl⟩ := ha
  rw [Core.classify_kind_of_le _ _ (hcov e he)]
  simp [Core.FindingKind.isViolation]

/-- Concrete input on which Claim C1 as stated (for arbitrary entry
sequences) fails: with a duplicated path whose second occurrence has a
smaller line count, the generated baseline keeps only the smaller
exemption, so re-checking the same entries reports a violation. -/
theorem C1_counterexample :
    (Core.run_check
        (Core.generate_baseline ⟨300, [], []⟩ [("a", 500), ("a", 400)])
        [("a", 500), ("a", 400)]).summary.violations ≠ 0 := by
  decide

/-- Witness for Claim C1's theorem at the spec's §8 baseline scenario:
entries `[("legacy.py", 500)]` with default limit 300. -/
theorem C1_baseline_zero_violations_witness :
    (([("legacy.py", 500)] : List (String × Nat)).map Prod.fst).Nodup
    ∧ (Core.run_check
          (Core.generate_baseline ⟨300, [], []⟩ [("legacy.py", 500)])
          [("legacy.py", 500)]).summary.violations = 0 :=
  ⟨by decide, C1_baseline_zero_violations ⟨300, [], []⟩ _ (by decide)⟩

/-- Claim C2 (corrected): `generate_baseline` is idempotent on every
Config `C` and every sequence of entries `E` whose paths are pairwise
distinct: `generate_baseline (generate_baseline C E) E =
generate_baseline C E`. (The distinctness hypothesis is forced: see the
counterexample with a duplicated path.) -/
theorem C2_generate_baseline_idempotent (C : Core.Config)
    (E : List (String × Nat)) (hnd : (E.map Prod.fst).Nodup) :
    Core.generate_baseline (Core.generate_baseline C E) E
      = Core.generate_baseline C E := by
  have hcov := Core.baseline_covers C E hnd
  have hid : E.foldl (Core.baselineStep (Core.generate_baseline C E))
        (Core.generate_baseline C E).exemptions
      = (Core.generate_baseline C E).exemptions :=
    Core.foldl_baselineStep_eq _ E _
      (fun e he => Nat.not_lt.mpr (hcov e he))
  have hshape : Core.generate_baseline (Core.generate_baseline C E) E
      = { default_limit := (Core.generate_baseline C E).default_limit
          rules := (Core.generate_baseline C E).rules
          exemptions :=
            E.foldl (Core.baselineStep (Core.generate_baseline C E))
              (Core.generate_baseline C E).exemptions } := rfl
  rw [hshape, hid]

/-- Concrete input on which Claim C2 as stated (for arbitrary entry
sequences) fails: with a duplicated path, the first application keeps
the second (smaller) count as the exemption, while the second
application raises it to the larger count. -/
theorem C2_counterexample :
    Core.generate_baseline
        (Core.generate_baseline ⟨300, [], []⟩ [("a", 500), ("a", 400)])
        [("a", 500), ("a", 400)]
      ≠ Core.generate_baseline ⟨300, [], []⟩ [("a", 500), ("a", 400)] := by
  decide

/-- Witness for Claim C2's theorem at a concrete config with a rule and
two distinct paths. -/
theorem C2_generate_baseline_idempotent_witness :
    (([("a.go", 150), ("b.txt", 50)] : List (String × Nat)).map
        Prod.fst).Nodup
    ∧ Core.generate_baseline
          (Core.generate_baseline ⟨200, [("*.go", 100)], []⟩
            [("a.go", 150), ("b.txt", 50)])
          [("a.go", 150), ("b.txt", 50)]
        = Core.generate_baseline ⟨200, [("*.go", 100)], []⟩
            [("a.go", 150), ("b.txt", 50)] :=
  ⟨by decide,
    C2_generate_baseline_idempotent ⟨200, [("*.go", 100)], []⟩ _ (by decide)⟩

/-- Claim C3 (corrected): the `matched_by` provenance consumed by the
renderer is a tagged value drawn from the closed set of TWO variants,
`Rule(pattern)` and `Default`; every `MatchBy` value is one of these, so
renderers pattern-match exhaustively over exactly these two cases. -/
theorem C3_matchby_two_variants :
    ∀ m : loq.MatchBy,
      (∃ p : String, m = loq.MatchBy.Rule p) ∨ m = loq.MatchBy.Default := by
  intro m
  cases m with
  | Rule p => exact Or.inl ⟨p, rfl⟩
  | Default => exact Or.inr rfl

/-- Refutation of Claim C3 as stated: there is no third provenance value
— no `MatchBy` value distinct from `Default` and from every
`Rule(pattern)` — so the claimed `ExplicitExemption` variant does not
exist in the renderer's provenance type. -/
theorem C3_counterexample :
    ¬ ∃ m : loq.MatchBy,
        (∀ p : String, m ≠ loq.MatchBy.Rule p) ∧ m ≠ loq.MatchBy.Default := by
  rintro ⟨m, h1, h2⟩
  cases m with
  | Rule p => exact h1 p rfl
  | Default => exact h2 rfl

/-- Claim C4 (confirmed, spec-modelled): for every Config and every path
that is a key of the exemptions mapping, `resolve` returns that
exemption's limit with provenance `ExplicitExemption`, regardless of the
rules (which are unconstrained here) and of the default limit. -/
theorem C4_exemption_dominates (c : Core.Config) (p : String) (l : Nat)
    (h : Core.lookupEx c.exemptions p = some l) :
    Core.resolve c p = (l, Core.Provenance.ExplicitExemption) := by
  unfold Core.resolve
  rw [h]

/-- Witness for Claim C4's theorem: the path `a.go` is exempted at 500
even though the rule `*.go → 100` also matches it. -/
theorem C4_exemption_dominates_witness :
    Core.lookupEx
        (Core.Config.mk 300 [("*.go", 100)] [("a.go", 500)]).exemptions
        "a.go" = some 500
    ∧ Core.globMatch "*.go" "a.go" = true
    ∧ Core.resolve ⟨300, [("*.go", 100)], [("a.go", 500)]⟩ "a.go"
        = (500, Core.Provenance.ExplicitExemption) :=
  ⟨by decide, by decide, C4_exemption_dominates _ _ _ (by decide)⟩

/-- Claim C5 (confirmed, spec-modelled): for a path not in the
exemptions mapping, `resolve` scans the rules in declaration order and
returns the limit of the first rule whose pattern matches the path, with
provenance `Rule(pattern)` — the rules after it are unconstrained, so a
later matching rule is ignored — and if no rule matches it returns
`default_limit` with provenance `Default`. `resolve` is a total
function, so this operation never fails. -/
theorem C5_first_rule_wins :
    (∀ (c : Core.Config) (p : String) (pre : List (String × Nat))
       (pat : String) (l : Nat) (post : List (String × Nat)),
      Core.lookupEx c.exemptions p = none →
      c.rules = pre ++ (pat, l) :: post →
      (∀ q ∈ pre, Core.globMatch q.1 p = false) →
      Core.globMatch pat p = true →
      Core.resolve c p = (l, Core.Provenance.Rule pat))
    ∧ (∀ (c : Core.Config) (p : String),
      Core.lookupEx c.exemptions p = none →
      (∀ q ∈ c.rules, Core.globMatch q.1 p = false) →
      Core.resolve c p = (c.default_limit, Core.Provenance.Default)) := by
  constructor
  · intro c p pre pat l post hex hr hpre hpat
    unfold Core.resolve
    rw [hex]
    have hfind : Core.firstRule c.rules p = some (pat, l) := by
      unfold Core.firstRule
      rw [hr]
      exact Core.find?_append_first _ pre (pat, l) post hpre hpat
    rw [hfind]
  · intro c p hex hall
    unfold Core.resolve
    rw [hex]
    have hfind : Core.firstRule c.rules p = none := by
      unfold Core.firstRule
      rw [List.find?_eq_none]
      intro q hq
      simp [hall q hq]
    rw [hfind]

/-- Witness for Claim C5's theorem at the spec's §8 scenario: rule
`gen/** → 1000` declared before `*.go → 300` governs `gen/big.go`, and a
path matching no rule falls through to the default. -/
theorem C5_first_rule_wins_witness :
    Core.globMatch "gen/**" "gen/big.go" = true
    ∧ Core.globMatch "**" "gen/big.go" = true
    ∧ Core.resolve ⟨300, [("gen/**", 1000), ("**", 600)], []⟩ "gen/big.go"
        = (1000, Core.Provenance.Rule "gen/**")
    ∧ Core.resolve ⟨300, [("*.go", 300)], []⟩ "README.md"
        = (300, Core.Provenance.Default) := by
  refine ⟨by decide, by decide, ?_, ?_⟩
  · exact C5_first_rule_wins.1 ⟨300, [("gen/**", 1000), ("**", 600)], []⟩
      "gen/big.go" [] "gen/**" 1000 [("**", 600)]
      (by decide) rfl (by simp) (by decide)
  · exact C5_first_rule_wins.2 ⟨300, [("*.go", 300)], []⟩ "README.md"
      (by decide) (by decide)

/-- Claim C6 (confirmed, spec-modelled): `classify` is a pure function
whose finding's kind is `Violation` if and only if the actual line count
exceeds the limit; in particular an actual count equal to the limit
always yields `Ok`. -/
theorem C6_classify_violation_iff :
    ∀ (p : String) (n l : Nat) (m : Core.Provenance),
      ((Core.classify p n l m).kind = Core.FindingKind.Violation l m
        ↔ l < n)
      ∧ (Core.classify p l l m).kind = Core.FindingKind.Ok l m := by
  intro p n l m
  constructor
  · unfold Core.classify
    by_cases h : l < n
    · simp [h]
    · simp [h]
  · exact Core.classify_kind_of_le p m (le_refl l)

/-- Claim C7 (confirmed, spec-modelled): for every sequence of findings
`fs`, `aggregate fs` produces a summary whose `total` is the length of
`fs` and whose `violations` is the number of findings in `fs` whose kind
is `Violation`. -/
theorem C7_aggregate_counts :
    ∀ fs : List Core.Finding,
      (Core.aggregate fs).summary.total = fs.length
      ∧ (Core.aggregate fs).summary.violations
          = fs.countP fun f => f.kind.isViolation := by
  intro fs
  rw [Core.aggregate_summary]
  exact ⟨rfl, rfl⟩

/-- Claim C8 (confirmed, spec-modelled): for every Config and entries
supplied in order, the findings of `run_check` carry exactly those paths
in the same order — no sorting or reordering. -/
theorem C8_findings_preserve_order :
    ∀ (c : Core.Config) (E : List (String × Nat)),
      ((Core.run_check c E).findings).map Core.Finding.path
        = E.map Prod.fst := by
  intro c E
  unfold Core.run_check Core.aggregate
  rw [List.map_map]
  rfl

/-- Claim C9 (confirmed): a `Skipped` finding contributes 1 to
`summary.total` and 0 to `summary.violations`, and the JSON renderer's
`violations` array contains exactly the translations of the `Violation`
findings — a `Skipped` or `Ok` finding never appears in it. -/
theorem C9_skipped_not_violations :
    (∀ (fs : List Core.Finding) (p r : String) (n : Nat),
      (Core.aggregate
          (fs ++ [⟨p, n, Core.FindingKind.Skipped r⟩])).summary.total
        = fs.length + 1
      ∧ (Core.aggregate
          (fs ++ [⟨p, n, Core.FindingKind.Skipped r⟩])).summary.violations
        = (Core.aggregate fs).summary.violations)
    ∧ (∀ (rep : loq.Report) (v : loq.JsonViolation),
      v ∈ (loq.write_json rep).violations ↔
        ∃ f ∈ rep.findings, ∃ a l m,
          f.kind = loq.FindingKind.Violation a l m
          ∧ v = { path := f.path, lines := a, max_lines := l
                  rule := loq.ruleString m }) := by
  constructor
  · intro fs p r n
    rw [Core.aggregate_summary, Core.aggregate_summary]
    constructor
    · simp
    · simp [List.countP_append, Core.FindingKind.isViolation]
  · intro rep v
    unfold loq.write_json
    rw [List.mem_filterMap]
    simp only [loq.jsonOfFinding_eq_some]

/-- Claim C10 (confirmed): the JSON renderer emits a violation matched
by the default limit with the literal rule string `"default"`, so a
report whose violation is matched by a rule whose pattern is the string
`"default"` and a report whose violation is matched by the default limit
have equal serialized outputs — hence byte-for-byte identical rendered
bytes under the (deterministic) serializer — even though the two reports
have distinct provenances: provenance is not injectively encoded in the
JSON output. -/
theorem C10_provenance_collision :
    loq.ruleString loq.MatchBy.Default = "default"
    ∧ loq.write_json loq.reportRuleNamedDefault
        = loq.write_json loq.reportMatchedByDefault
    ∧ loq.reportRuleNamedDefault ≠ loq.reportMatchedByDefault
    ∧ ∀ render : loq.JsonOutput → String,
        render (loq.write_json loq.reportRuleNamedDefault)
          = render (loq.write_json loq.reportMatchedByDefault) := by
  refine ⟨rfl, by decide, by decide, fun render => ?_⟩
  exact congrArg render (by decide)
